import Mathlib

/-!
Shallow embedding of the ns-3 result-processing pipeline scripts
(`results/og-sim-2/run_and_plot.py`, `results/tcp-multi-rtt/run_and_plot.py`,
`results/reno-equilibrium/run_and_plot.py`).

Python machine floats are idealised as exact rationals (`ℚ`); a raised
Python exception is modelled by `Option.none` (or an explicit `raised`
constructor) at the point where control leaves the function; `exit(1)`
is modelled by an explicit constructor carrying the exit code.
-/

/-! ### Model of Python numeric string conversion

`pyFloat` models the builtin `float(s)` on decimal literals of the shape
`[+-]digits` or `[+-]digits.digits`; every other string is rejected
(`none` models the raised `ValueError`).  `pyInt` models `int(s)` on
`[+-]digits`.  These are conservative models of the builtins: the result
files produced by the simulator only contain such decimal literals. -/

def isDigitCh (c : Char) : Bool :=
  '0' ≤ c && c ≤ '9'

def digitVal (c : Char) : ℕ :=
  c.toNat - '0'.toNat

def natOfDigits (cs : List Char) : ℕ :=
  cs.foldl (fun a c => 10 * a + digitVal c) 0

def allDigits (cs : List Char) : Bool :=
  !cs.isEmpty && cs.all isDigitCh

/-- Split a character list at the first dot, returning the part before it
and, when a dot is present, the part after it. -/
def splitDot : List Char → List Char × Option (List Char)
  | [] => ([], none)
  | c :: rest =>
    if c = '.' then ([], some rest)
    else ((splitDot rest).1.cons c, (splitDot rest).2)

def pyFloatMag (cs : List Char) : Option ℚ :=
  let p := splitDot cs
  match p.2 with
  | none => if allDigits p.1 then some (natOfDigits p.1 : ℚ) else none
  | some fracPart =>
    if allDigits p.1 && allDigits fracPart then
      some ((natOfDigits p.1 : ℚ) + (natOfDigits fracPart : ℚ) / (10 ^ fracPart.length))
    else none

def pyFloatChars (cs : List Char) : Option ℚ :=
  match cs with
  | [] => none
  | c :: rest =>
    if c = '-' then (pyFloatMag rest).map Neg.neg
    else if c = '+' then pyFloatMag rest
    else pyFloatMag (c :: rest)

/-- Model of Python `float(s)` (raised `ValueError` ↦ `none`). -/
def pyFloat (s : String) : Option ℚ :=
  pyFloatChars s.data

def pyIntChars (cs : List Char) : Option ℤ :=
  match cs with
  | [] => none
  | c :: rest =>
    if c = '-' then (if allDigits rest then some (-(natOfDigits rest : ℤ)) else none)
    else if c = '+' then (if allDigits rest then some (natOfDigits rest : ℤ) else none)
    else if allDigits (c :: rest) then some (natOfDigits (c :: rest) : ℤ)
    else none

/-- Model of Python `int(s)` (raised `ValueError` ↦ `none`). -/
def pyInt (s : String) : Option ℤ :=
  pyIntChars s.data

/-- Model of Python `int(q)` applied to a float value: truncation toward
zero (`Int.div` truncates toward zero, matching CPython). -/
def ratTrunc (q : ℚ) : ℤ :=
  q.num / (q.den : ℤ)

/-- Model of Python float division: `ZeroDivisionError` ↦ `none`. -/
def pyDiv (x y : ℚ) : Option ℚ :=
  if y = 0 then none else some (x / y)

/-! ### Model of Python line handling (`str.strip`, `str.split`) -/

def isSpaceCh (c : Char) : Bool :=
  c = ' ' || c = '\t' || c = '\n' || c = '\r'

/-- Model of Python `str.strip()`. -/
def stripChars (cs : List Char) : List Char :=
  ((cs.dropWhile isSpaceCh).reverse.dropWhile isSpaceCh).reverse

/-- Helper of `splitWs`; the accumulator holds the current word reversed. -/
def splitWsAux : List Char → List Char → List (List Char)
  | [], acc => if acc.isEmpty then [] else [acc.reverse]
  | c :: rest, acc =>
    if isSpaceCh c then
      if acc.isEmpty then splitWsAux rest [] else acc.reverse :: splitWsAux rest []
    else splitWsAux rest (c :: acc)

/-- Model of Python `str.split()` (split on runs of whitespace, no empties). -/
def splitWs (cs : List Char) : List (List Char) :=
  splitWsAux cs []

/-! ### CSV model

A CSV file that `csv.DictReader` has read is modelled as the header's
column names plus the field lists of the data rows.  `row[key]` is
modelled by `dictGet`: a missing column yields `none`, which feeds the
same failure path as a raised `KeyError`/`TypeError`. -/

structure CsvFile where
  header : List String
  rows : List (List String)
deriving DecidableEq

def dictGet (hdr row : List String) (key : String) : Option String :=
  (hdr.zip row).lookup key

/-- A file system mapping paths to CSV files; `none` means the path does
not exist (`os.path.exists` is false / `open` raises `FileNotFoundError`). -/
def CsvFs : Type := String → Option CsvFile

/-- A file system mapping paths to plain text files (lists of lines). -/
def TxtFs : Type := String → Option (List (List Char))

/-! ### Record schemas -/

/-- Aggregate record built by `parse_csv` in `og-sim-2/run_and_plot.py`. -/
structure AggregateRecord where
  variant : String
  total_throughput : ℚ
  avg_throughput : ℚ
  avg_delay : ℚ
  total_lost : ℤ
  loss_rate : ℚ
  num_flows : ℤ
deriving DecidableEq

/-- Per-flow record built by `parse_perflow_csv` in `og-sim-2/run_and_plot.py`. -/
structure FlowRecord where
  flow_id : ℤ
  throughput : ℚ
  delay : ℚ
deriving DecidableEq

/-- Per-flow record built by `read_results` in `tcp-multi-rtt/run_and_plot.py`. -/
structure Flow2 where
  flow_id : ℤ
  rtt_ms : ℤ
  throughput : ℚ
  data_mb : ℚ
  avg_delay : ℚ
  loss_rate : ℚ
deriving DecidableEq

/-- Result of `calculate_stats` in `tcp-multi-rtt/run_and_plot.py`. -/
structure Stats where
  total : ℚ
  avg : ℚ
  min : ℚ
  max : ℚ
  fairness : ℚ
  avg_loss : ℚ
deriving DecidableEq

/-- Sequencing of an exception-raising loop body over a list: the Python
loop `for row in rows: out.append(f row)` inside a `try` block returns
all results, or propagates the first exception (`none`). -/
def optionMapList (g : α → Option β) : List α → Option (List β)
  | [] => some []
  | a :: l =>
    match g a with
    | none => none
    | some b => (optionMapList g l).map (b :: ·)

/-! ### og-sim-2 parsers (`results/og-sim-2/run_and_plot.py`) -/

def TCP_VARIANTS : List String := ["LinuxReno", "Fast"]

def OUTPUT_DIR : String := "results/og-sim-2/"

def ogAggPath (v : String) : String :=
  OUTPUT_DIR ++ v ++ "_fanout.csv"

def ogPerflowPath (v : String) : String :=
  OUTPUT_DIR ++ v ++ "_perflow.csv"

/-- Field conversions of one aggregate row (the dict literal inside
`parse_csv`); any failing conversion or missing column gives `none`. -/
def aggOfRow (hdr row : List String) : Option AggregateRecord := do
  let v ← dictGet hdr row "TCP_Variant"
  let tt ← (dictGet hdr row "Total_Throughput_Mbps").bind pyFloat
  let avt ← (dictGet hdr row "Avg_Throughput_Per_Flow_Mbps").bind pyFloat
  let ad ← (dictGet hdr row "Avg_Delay_ms").bind pyFloat
  let tl ← (dictGet hdr row "Total_Lost_Packets").bind pyFloat
  let lr ← (dictGet hdr row "Loss_Rate_Percent").bind pyFloat
  let nf ← (dictGet hdr row "Num_Flows").bind pyFloat
  pure ⟨v, tt, avt, ad, ratTrunc tl, lr, ratTrunc nf⟩

/-- `parse_csv`: reads `next(reader)` (the first data row) and converts
it; `StopIteration` on an empty file and any conversion error are caught
by the blanket `except`, returning `None`. -/
def parse_csv (f : CsvFile) : Option AggregateRecord :=
  match f.rows with
  | [] => none
  | r :: _ => aggOfRow f.header r

/-- Field conversions of one per-flow row in `parse_perflow_csv`. -/
def flowOfRow (hdr row : List String) : Option FlowRecord := do
  let fid ← (dictGet hdr row "Flow_ID").bind pyInt
  let tp ← (dictGet hdr row "Throughput_Mbps").bind pyFloat
  let dl ← (dictGet hdr row "Delay_ms").bind pyFloat
  pure ⟨fid, tp, dl⟩

/-- `parse_perflow_csv`: the whole row loop sits inside one `try`; a
conversion error on any row jumps to `except`, which returns `None`
(discarding the rows already accumulated). -/
def parse_perflow_csv (f : CsvFile) : Option (List FlowRecord) :=
  optionMapList (flowOfRow f.header) f.rows

/-! ### og-sim-2 comparison arithmetic (`print_summary`) -/

def throughput_diff (a b : AggregateRecord) : Option ℚ :=
  (pyDiv (b.total_throughput - a.total_throughput) a.total_throughput).map (· * 100)

def delay_diff (a b : AggregateRecord) : Option ℚ :=
  (pyDiv (b.avg_delay - a.avg_delay) a.avg_delay).map (· * 100)

def loss_diff (a b : AggregateRecord) : Option ℚ :=
  (pyDiv (b.loss_rate - a.loss_rate) (a.loss_rate + 1 / 1000)).map (· * 100)

/-! ### tcp-multi-rtt parsers (`results/tcp-multi-rtt/run_and_plot.py`) -/

def tcp_variants : List String := ["TcpLinuxReno", "TcpFast"]

def rttResultsPath (v : String) : String :=
  "results/tcp-multi-rtt/" ++ v ++ "_results.csv"

def rttCwndPath (v : String) (flow_id : ℕ) : String :=
  "results/tcp-multi-rtt/" ++ v ++ "_flow" ++ toString flow_id ++ "_cwnd.dat"

/-- Field conversions of one per-flow row in `read_results`. -/
def flow2OfRow (hdr row : List String) : Option Flow2 := do
  let fid ← (dictGet hdr row "Flow_ID").bind pyInt
  let rtt ← (dictGet hdr row "RTT_ms").bind pyInt
  let tp ← (dictGet hdr row "Throughput_Mbps").bind pyFloat
  let dm ← (dictGet hdr row "Data_Received_MB").bind pyFloat
  let ad ← (dictGet hdr row "Avg_Delay_ms").bind pyFloat
  let lr ← (dictGet hdr row "Loss_Rate_Percent").bind pyFloat
  pure ⟨fid, rtt, tp, dm, ad, lr⟩

/-- Outcome of a call that either returns normally or lets an uncaught
exception propagate to the caller. -/
inductive PyResult (α : Type) where
  | raised : PyResult α
  | ok : α → PyResult α
deriving DecidableEq

/-- `read_results`: a missing file prints a warning and returns `None`;
the row loop has no exception handler, so a failing conversion raises
out of the function. -/
def read_results (fs : CsvFs) (variant : String) : PyResult (Option (List Flow2)) :=
  match fs (rttResultsPath variant) with
  | none => .ok none
  | some f =>
    match optionMapList (flow2OfRow f.header) f.rows with
    | none => .raised
    | some flows => .ok (some flows)

/-- `calculate_stats`: `none` models the `ZeroDivisionError` raised on an
empty flow list (`total / len`) or on an all-zero throughput list (the
fairness denominator `len * sum_squared` is then zero). -/
def calculate_stats (flows : List Flow2) : Option Stats :=
  let throughputs := flows.map (fun f => f.throughput)
  let loss_rates := flows.map (fun f => f.loss_rate)
  match throughputs with
  | [] => none
  | t :: ts =>
    let total := (t :: ts).sum
    let sum_squared := ((t :: ts).map (fun x => x * x)).sum
    if sum_squared = 0 then none
    else
      some
        { total := total
          avg := total / ((t :: ts).length : ℚ)
          min := ts.foldl Min.min t
          max := ts.foldl Max.max t
          fairness := total * total / (((t :: ts).length : ℚ) * sum_squared)
          avg_loss := loss_rates.sum / (loss_rates.length : ℚ) }

/-- Value of the RTT-bias computation in `main`:
`low/high if high > 0 else float('inf')`. -/
inductive Bias where
  | finite : ℚ → Bias
  | posInf : Bias
deriving DecidableEq

/-- The bias computation of `main` on one variant's ordered flow list:
`flows[0]`/`flows[-1]` on an empty list would raise (`none`). -/
def rtt_bias (flows : List Flow2) : Option Bias :=
  match flows.head?, flows.getLast? with
  | some lo, some hi =>
    some (if 0 < hi.throughput then Bias.finite (lo.throughput / hi.throughput) else Bias.posInf)
  | _, _ => none

/-- `read_cwnd_data` line loop: `#`-prefixed lines are skipped before
stripping; a line whose stripped form does not split into exactly two
tokens is skipped; a token that fails `float` raises out of the function
(`none`). -/
def readCwndLines : List (List Char) → Option (List ℚ × List ℚ)
  | [] => some ([], [])
  | l :: rest =>
    if l.head? = some '#' then readCwndLines rest
    else
      let parts := splitWs (stripChars l)
      if parts.length = 2 then
        (pyFloatChars (parts.getD 0 [])).bind fun ta =>
          (pyFloatChars (parts.getD 1 [])).bind fun cb =>
            (readCwndLines rest).map fun tc => (ta :: tc.1, cb :: tc.2)
      else readCwndLines rest

/-- `read_cwnd_data`: missing file prints a warning and returns
`(None, None)`; otherwise the line loop runs with no exception handler. -/
def read_cwnd_data (fs : TxtFs) (variant : String) (flow_id : ℕ) : PyResult (Option (List ℚ × List ℚ)) :=
  match fs (rttCwndPath variant flow_id) with
  | none => .ok none
  | some lines =>
    match readCwndLines lines with
    | none => .raised
    | some tc => .ok (some tc)

/-! ### tcp-multi-rtt pipeline driver (`main`) -/

/-- Per-variant data entry of `all_results` in `main`. -/
structure VariantData where
  name : String
  flows : List Flow2
  stats : Stats
deriving DecidableEq

/-- The result-loading loop of `main`: `read_results` raising propagates;
a `None` result or an empty (falsy) flow list skips the variant;
otherwise `calculate_stats` runs (its `ZeroDivisionError` propagates)
and the variant is added. -/
def tcp_load (fs : CsvFs) : List String → PyResult (List VariantData)
  | [] => .ok []
  | v :: vs =>
    match read_results fs v with
    | .raised => .raised
    | .ok none => tcp_load fs vs
    | .ok (some flows) =>
      if flows.isEmpty then tcp_load fs vs
      else
        match calculate_stats flows with
        | none => .raised
        | some st =>
          match tcp_load fs vs with
          | .raised => .raised
          | .ok rest => .ok (⟨v, flows, st⟩ :: rest)

/-- Control-flow outcome of `main` in `tcp-multi-rtt/run_and_plot.py` up
to the point where per-flow tables, analysis and plotting begin. -/
inductive TcpPhase where
  | earlyExit1 : TcpPhase
  | loadRaised : TcpPhase
  | noResultsExit1 : TcpPhase
  | proceeded : List VariantData → TcpPhase
deriving DecidableEq

/-- `main`: every variant is run first (`simulation_success` is filled
for all of them); if any failed, `main` returns 1 before any parsing;
otherwise results are loaded; with zero loaded variants `main` returns 1;
otherwise it proceeds to analysis and plotting. -/
def tcp_main (simOk : String → Bool) (fs : CsvFs) : TcpPhase :=
  if tcp_variants.all simOk then
    match tcp_load fs tcp_variants with
    | .raised => .loadRaised
    | .ok [] => .noResultsExit1
    | .ok data => .proceeded data
  else .earlyExit1

/-- Process exit code of each modelled phase (`sys.exit(main())`); an
uncaught exception also exits non-zero (CPython exits 1 on a traceback);
`proceeded` is followed by unmodelled rendering, so its code is `none`. -/
def tcpExit : TcpPhase → Option ℤ
  | .earlyExit1 => some 1
  | .loadRaised => some 1
  | .noResultsExit1 => some 1
  | .proceeded _ => none

def isProceeded : TcpPhase → Bool
  | .proceeded _ => true
  | _ => false

/-! ### og-sim-2 pipeline driver (`main`) -/

/-- Aggregate result collection of `main`: for each variant, if the file
exists it is parsed, and a non-`None` record is added under the variant
name. -/
def og_collect_results (fs : CsvFs) : List (String × AggregateRecord) :=
  TCP_VARIANTS.filterMap (fun v =>
    match fs (ogAggPath v) with
    | none => none
    | some f => (parse_csv f).map (fun r => (v, r)))

/-- Per-flow collection of `main`: `parse_perflow_csv` returning `None`
or an empty list (both falsy under `if flows:`) skips the variant. -/
def og_collect_perflow (fs : CsvFs) : List (String × List FlowRecord) :=
  TCP_VARIANTS.filterMap (fun v =>
    match fs (ogPerflowPath v) with
    | none => none
    | some f =>
      match parse_perflow_csv f with
      | none => none
      | some [] => none
      | some flows => some (v, flows))

/-- Whether the comparison block of `print_summary` raises
`ZeroDivisionError`: it runs only when both variants are present, and
divides by the baseline's total throughput, average delay, and
`loss_rate + 0.001`. -/
def summary_raises (results : List (String × AggregateRecord)) : Bool :=
  match results.lookup "LinuxReno", results.lookup "Fast" with
  | some a, some _ =>
    if a.total_throughput = 0 ∨ a.avg_delay = 0 ∨ a.loss_rate + 1 / 1000 = 0 then true else false
  | _, _ => false

/-- Control-flow outcome of `main` in `og-sim-2/run_and_plot.py`. -/
inductive OgPhase where
  | exit0NoResults : OgPhase
  | summaryRaised : OgPhase
  | enteredPlotting : OgPhase
  | reachedEnd0 : OgPhase
deriving DecidableEq

/-- State of one run of `main` in `og-sim-2/run_and_plot.py`. -/
structure OgRun where
  success_count : ℕ
  results : List (String × AggregateRecord)
  perflow : List (String × List FlowRecord)
  phase : OgPhase

/-- `main`: all variants are simulated (failures only decrement the
success count), all result files are parsed regardless of simulation
outcomes, an empty result set prints a message and returns (exit 0),
and otherwise `print_summary` runs followed by plotting when matplotlib
is available. -/
def og_main (hasMpl : Bool) (simOk : String → Bool) (aggFs pfFs : CsvFs) : OgRun :=
  let sc := (TCP_VARIANTS.filter (fun v => simOk v)).length
  let results := og_collect_results aggFs
  let pf := og_collect_perflow pfFs
  if results.isEmpty then ⟨sc, results, pf, .exit0NoResults⟩
  else if summary_raises results then ⟨sc, results, pf, .summaryRaised⟩
  else if hasMpl then ⟨sc, results, pf, .enteredPlotting⟩
  else ⟨sc, results, pf, .reachedEnd0⟩

/-- Process exit code of each `og-sim-2` phase: `main()` is called
without `sys.exit`, so normal completion always exits 0; an uncaught
`ZeroDivisionError` in `print_summary` exits 1; the plotting phase is
unmodelled (`none`). -/
def ogExit : OgPhase → Option ℤ
  | .exit0NoResults => some 0
  | .summaryRaised => some 1
  | .enteredPlotting => none
  | .reachedEnd0 => some 0

/-! ### reno-equilibrium parser (`results/reno-equilibrium/run_and_plot.py`) -/

def renoCwndPath : String := "results/reno-equilibrium/cwnd_trace.txt"

/-- Outcome of `parse_cwnd_file`: it either terminates the whole process
via `exit(1)` or returns the two accumulated lists. -/
inductive CwndOutcome where
  | exited : ℤ → CwndOutcome
  | ok : List ℚ × List ℤ → CwndOutcome
deriving DecidableEq

/-- One iteration of the `parse_cwnd_file` loop, updating the
`(times, cwnds)` accumulators.  The `try` block runs
`t, cwnd = line.split()`, then `times.append(float(t))`, then
`cwnds.append(int(cwnd))`; a `ValueError` at any of the three steps jumps
to `continue`, keeping whatever was appended before the failure. -/
def renoProcessLine (acc : List ℚ × List ℤ) (rawLine : List Char) : List ℚ × List ℤ :=
  let line := stripChars rawLine
  if line.isEmpty then acc
  else
    let parts := splitWs line
    if parts.length = 2 then
      match pyFloatChars (parts.getD 0 []) with
      | none => acc
      | some tv =>
        match pyIntChars (parts.getD 1 []) with
        | none => (acc.1 ++ [tv], acc.2)
        | some cv => (acc.1 ++ [tv], acc.2 ++ [cv])
    else acc

def renoParseLines (lines : List (List Char)) : List ℚ × List ℤ :=
  lines.foldl renoProcessLine ([], [])

/-- `parse_cwnd_file`: a missing file prints an error and calls
`exit(1)`; otherwise the line loop runs and the two lists are returned. -/
def parse_cwnd_file (fs : TxtFs) (filename : String) : CwndOutcome :=
  match fs filename with
  | none => .exited 1
  | some lines => .ok (renoParseLines lines)

def exitsProcess : CwndOutcome → Bool
  | .exited _ => true
  | .ok _ => false

/-! ### Concrete inputs used in the theorems below -/

/-- Three flows with throughputs `1.0, 2.0, 3.0` Mbps. -/
def threeFlows : List Flow2 :=
  [⟨0, 50, 1, 0, 0, 0⟩, ⟨1, 100, 2, 0, 0, 0⟩, ⟨2, 150, 3, 0, 0, 0⟩]

def pfHeader : List String := ["Flow_ID", "Throughput_Mbps", "Delay_ms"]

/-- A per-flow file with one well-formed row and one row whose
`Flow_ID` fails `int()`. -/
def pfBadFile : CsvFile :=
  ⟨pfHeader, [["1", "2.0", "10.0"], ["oops", "3.0", "12.0"]]⟩

/-- An empty file system: no path exists. -/
def noCsv : CsvFs := fun _ => none

/-- An empty text file system: no path exists. -/
def noTxt : TxtFs := fun _ => none

def rttHeader : List String :=
  ["Flow_ID", "RTT_ms", "Throughput_Mbps", "Data_Received_MB", "Avg_Delay_ms", "Loss_Rate_Percent"]

/-- A well-formed results file for one tcp-multi-rtt variant. -/
def rttGoodFile : CsvFile :=
  ⟨rttHeader, [["0", "50", "5.0", "10.0", "60.0", "1.0"]]⟩

def rttGoodFlows : List Flow2 := [⟨0, 50, 5, 10, 60, 1⟩]

/-- File system where only `TcpLinuxReno`'s results file exists. -/
def renoOnlyFs : CsvFs :=
  fun p => if p = rttResultsPath "TcpLinuxReno" then some rttGoodFile else none

/-- Simulation outcome where `TcpLinuxReno` succeeds and `TcpFast` fails. -/
def fastFails : String → Bool := fun v => v == "TcpLinuxReno"

/-- Aggregate record A of the comparison scenario. -/
def recA : AggregateRecord := ⟨"LinuxReno", 10, 0, 20, 0, 1, 0⟩

/-- Aggregate record B of the comparison scenario. -/
def recB : AggregateRecord := ⟨"Fast", 12, 0, 18, 0, 1 / 2, 0⟩

/-- An aggregate record whose metrics are all zero. -/
def zeroRec : AggregateRecord := ⟨"LinuxReno", 0, 0, 0, 0, 0, 0⟩

/-- Two flows whose last throughput is negative. -/
def negFlows : List Flow2 := [⟨0, 50, 1, 0, 0, 0⟩, ⟨1, 200, -1, 0, 0, 0⟩]

/-- A cwnd trace whose single line has a float timestamp but a
non-integer window token. -/
def badCwndLine : List Char := ['1', '.', '5', ' ', 'a', 'b', 'c']

def badCwndFs : TxtFs :=
  fun p => if p = renoCwndPath then some [badCwndLine] else none

/-- A per-flow file whose rows are all well-formed. -/
def pfGoodFile : CsvFile := ⟨pfHeader, [["1", "2.0", "10.0"]]⟩

/-- A tcp-multi-rtt results file with one well-formed and one malformed row. -/
def rttBadFile : CsvFile :=
  ⟨rttHeader, [["0", "50", "5.0", "10.0", "60.0", "1.0"],
               ["x", "100", "4.0", "8.0", "70.0", "2.0"]]⟩

def rttBadFs : CsvFs :=
  fun p => if p = rttResultsPath "TcpFast" then some rttBadFile else none

/-- All simulations succeed. -/
def allOk : String → Bool := fun _ => true

/-- Whether a `read_results` outcome delivered a non-empty flow list. -/
def usableResults : PyResult (Option (List Flow2)) → Bool
  | .ok (some (_ :: _)) => true
  | _ => false

/-! ### Helper lemmas -/

lemma sumSq_nonneg (l : List ℚ) : 0 ≤ (l.map (fun x => x * x)).sum := by
  induction l with
  | nil => simp
  | cons a l ih =>
    simp only [List.map_cons, List.sum_cons]
    exact add_nonneg (mul_self_nonneg a) ih

lemma cauchy_step (a S Q n : ℚ) (hn : 0 < n) (hQ : 0 ≤ Q) (h : S * S ≤ n * Q) :
    (a + S) * (a + S) ≤ (n + 1) * (a * a + Q) := by
  nlinarith [sq_nonneg (n * a - S), mul_nonneg hn.le (sub_nonneg.mpr h), h, hQ, hn]

lemma sum_mul_self_le (l : List ℚ) :
    l.sum * l.sum ≤ (l.length : ℚ) * (l.map (fun x => x * x)).sum := by
  induction l with
  | nil => simp
  | cons a l ih =>
    rcases l with _ | ⟨b, m⟩
    · simp
    · have hn : (0 : ℚ) < ((b :: m).length : ℚ) := by
        exact_mod_cast Nat.succ_pos m.length
      have step := cauchy_step a ((b :: m).sum) (((b :: m).map (fun x => x * x)).sum)
        ((b :: m).length : ℚ) hn (sumSq_nonneg _) ih
      simp only [List.map_cons, List.sum_cons, List.length_cons] at step ⊢
      push_cast at step ⊢
      linarith [step]

lemma sum_of_all_eq (l : List ℚ) (c : ℚ) (h : ∀ x ∈ l, x = c) :
    l.sum = (l.length : ℚ) * c := by
  induction l with
  | nil => simp
  | cons a l ih =>
    have ha : a = c := h a (List.mem_cons_self a l)
    have ih' := ih (fun x hx => h x (List.mem_cons_of_mem a hx))
    simp only [List.sum_cons, List.length_cons, ih', ha]
    push_cast
    ring

lemma optionMapList_eq_some (g : α → Option β) (l : List α)
    (h : ∀ a ∈ l, (g a).isSome) :
    optionMapList g l = some (l.filterMap g) := by
  induction l with
  | nil => simp [optionMapList]
  | cons a l ih =>
    obtain ⟨b, hb⟩ := Option.isSome_iff_exists.mp (h a (List.mem_cons_self a l))
    have ih' := ih (fun x hx => h x (List.mem_cons_of_mem a hx))
    simp [optionMapList, hb, ih', List.filterMap_cons]

lemma optionMapList_eq_none (g : α → Option β) (l : List α)
    (h : ∃ a ∈ l, g a = none) :
    optionMapList g l = none := by
  induction l with
  | nil => simp at h
  | cons a l ih =>
    obtain ⟨x, hx, hnone⟩ := h
    rcases List.mem_cons.mp hx with rfl | hmem
    · simp [optionMapList, hnone]
    · cases hga : g a with
      | none => simp [optionMapList, hga]
      | some b => simp [optionMapList, hga, ih ⟨x, hmem, hnone⟩]

lemma readCwndLines_lengths (lines : List (List Char)) (ts cs : List ℚ)
    (h : readCwndLines lines = some (ts, cs)) : ts.length = cs.length := by
  induction lines generalizing ts cs with
  | nil =>
    simp only [readCwndLines, Option.some.injEq, Prod.mk.injEq] at h
    obtain ⟨rfl, rfl⟩ := h
    rfl
  | cons l rest ih =>
    by_cases hhash : l.head? = some '#'
    · exact ih ts cs (by simpa [readCwndLines, hhash] using h)
    · by_cases hlen : (splitWs (stripChars l)).length = 2
      · simp only [readCwndLines, hhash, if_false, hlen, if_true] at h
        rcases hta : pyFloatChars ((splitWs (stripChars l)).getD 0 []) with _ | ta
        · rw [hta, Option.none_bind] at h
          exact Option.noConfusion h
        · rw [hta, Option.some_bind] at h
          rcases hcb : pyFloatChars ((splitWs (stripChars l)).getD 1 []) with _ | cb
          · rw [hcb, Option.none_bind] at h
            exact Option.noConfusion h
          · rw [hcb, Option.some_bind] at h
            rcases hrest : readCwndLines rest with _ | ⟨ts', cs'⟩
            · rw [hrest, Option.map_none'] at h
              exact Option.noConfusion h
            · rw [hrest, Option.map_some'] at h
              simp only [Option.some.injEq, Prod.mk.injEq] at h
              obtain ⟨rfl, rfl⟩ := h
              simpa using ih ts' cs' hrest
      · simp only [readCwndLines, hhash, if_false, hlen] at h
        exact ih ts cs h

/-! ### Claim theorems -/

/-- C9: `parse_csv` builds its aggregate record from only the first data
row after the header (the result is a function of that row alone, so any
subsequent rows are ignored), and a file with no data rows — or, via
`aggOfRow`, a first row with a failing field conversion — yields `None`. -/
theorem parse_csv_first_row_only (hdr r : List String) (rest : List (List String)) :
    parse_csv ⟨hdr, r :: rest⟩ = aggOfRow hdr r ∧ parse_csv ⟨hdr, []⟩ = none :=
  ⟨rfl, rfl⟩

/-- C5 (amended): on aggregate records A `(total=10, avg_delay=20, loss=1)`
and B `(total=12, avg_delay=18, loss=0.5)` the comparison code yields a
throughput delta of `+20%` and a delay delta of `-10%`, but the loss
delta is `-50000/1001 ≈ -49.95%` (the epsilon `0.001` in the denominator
makes it differ from `-50%`). -/
theorem compare_scenario_values :
    throughput_diff recA recB = some 20 ∧ delay_diff recA recB = some (-10) ∧
    loss_diff recA recB = some (-50000 / 1001) := by
  refine ⟨?_, ?_, ?_⟩ <;>
    norm_num [throughput_diff, delay_diff, loss_diff, pyDiv, recA, recB]

/-- C5 (counterexample): the loss-rate delta computed by the comparison
code on the claim's records is not `-50%`. -/
theorem compare_scenario_loss_not_minus_fifty :
    loss_diff recA recB ≠ some (-50) := by
  norm_num [loss_diff, pyDiv, recA, recB]

/-- C6 (amended): each percentage difference of the comparison code
satisfies `d(a, a) = 0` whenever its denominator is non-zero; at a zero
denominator the division raises `ZeroDivisionError` instead
(see the counterexample). -/
theorem pct_diff_self_eq_zero (r : AggregateRecord) :
    (r.total_throughput ≠ 0 → throughput_diff r r = some 0) ∧
    (r.avg_delay ≠ 0 → delay_diff r r = some 0) ∧
    (r.loss_rate + 1 / 1000 ≠ 0 → loss_diff r r = some 0) := by
  refine ⟨fun h => ?_, fun h => ?_, fun h => ?_⟩
  · simp [throughput_diff, pyDiv, h, sub_self]
  · simp [delay_diff, pyDiv, h, sub_self]
  · rw [one_div] at h
    simp [loss_diff, pyDiv, h, sub_self]

/-- C6 (witness): the three self-comparisons are zero on record A. -/
theorem pct_diff_self_eq_zero_witness :
    throughput_diff recA recA = some 0 ∧ delay_diff recA recA = some 0 ∧
    loss_diff recA recA = some 0 := by
  obtain ⟨h1, h2, h3⟩ := pct_diff_self_eq_zero recA
  exact ⟨h1 (by norm_num [recA]), h2 (by norm_num [recA]), h3 (by norm_num [recA])⟩

/-- C6 (counterexample): at a record whose total throughput is `0`,
`d(a, a)` is a raised `ZeroDivisionError` (modelled `none`), not `0`. -/
theorem pct_diff_self_zero_raises :
    throughput_diff zeroRec zeroRec = none ∧ throughput_diff zeroRec zeroRec ≠ some 0 := by
  constructor
  · simp [throughput_diff, pyDiv, zeroRec]
  · simp [throughput_diff, pyDiv, zeroRec]

/-- C3 (counterexample): on a nonexistent path, `parse_cwnd_file` in
`reno-equilibrium/run_and_plot.py` terminates the whole process with
`exit(1)` — a pipeline-level failure, not a returned `NotFound` outcome. -/
theorem missing_cwnd_file_exits :
    parse_cwnd_file noTxt renoCwndPath = CwndOutcome.exited 1 ∧
    exitsProcess (parse_cwnd_file noTxt renoCwndPath) = true :=
  ⟨rfl, rfl⟩

/-- C3 (amended): for a nonexistent path, `read_results` returns the
`None` outcome without raising, and the `og-sim-2` collection loop skips
the missing variant while still collecting the other variant; but
`parse_cwnd_file` in `reno-equilibrium` escalates a missing file to
process exit 1. -/
theorem missing_file_handling (fs : TxtFs) (cfs : CsvFs) (path v : String) :
    (fs path = none → parse_cwnd_file fs path = CwndOutcome.exited 1) ∧
    (cfs (rttResultsPath v) = none → read_results cfs v = PyResult.ok none) ∧
    (cfs (ogAggPath "LinuxReno") = none →
      og_collect_results cfs =
        (((cfs (ogAggPath "Fast")).bind parse_csv).map fun r => ("Fast", r)).toList) := by
  refine ⟨fun h => ?_, fun h => ?_, fun h => ?_⟩
  · simp [parse_cwnd_file, h]
  · simp [read_results, h]
  · simp only [og_collect_results, TCP_VARIANTS, List.filterMap_cons, h,
      List.filterMap_nil]
    cases hf : cfs (ogAggPath "Fast") with
    | none => simp
    | some f =>
      cases hp : parse_csv f with
      | none => simp [hp]
      | some r => simp [hp]

/-- C3 (witness): concrete instances of the three missing-file
behaviours on the empty file systems. -/
theorem missing_file_handling_witness :
    parse_cwnd_file noTxt "trace.txt" = CwndOutcome.exited 1 ∧
    read_results noCsv "TcpFast" = PyResult.ok none ∧
    og_collect_results noCsv =
      (((noCsv (ogAggPath "Fast")).bind parse_csv).map fun r => ("Fast", r)).toList := by
  obtain ⟨h1, h2, h3⟩ := missing_file_handling noTxt noCsv "trace.txt" "TcpFast"
  exact ⟨h1 rfl, h2 rfl, h3 rfl⟩

/-- C2 (amended): the per-flow parsers are all-or-nothing rather than
row-skipping: `parse_perflow_csv` returns all records when every row
converts, but returns `None` (losing the well-formed rows too) as soon
as one row fails; `read_results` lets the conversion error propagate
(raises) instead of skipping the row. -/
theorem perflow_parse_all_or_nothing :
    (∀ f : CsvFile, (∀ r ∈ f.rows, (flowOfRow f.header r).isSome) →
      parse_perflow_csv f = some (f.rows.filterMap (flowOfRow f.header))) ∧
    (∀ f : CsvFile, (∃ r ∈ f.rows, flowOfRow f.header r = none) →
      parse_perflow_csv f = none) ∧
    (∀ (fs : CsvFs) (v : String) (f : CsvFile), fs (rttResultsPath v) = some f →
      (∃ r ∈ f.rows, flow2OfRow f.header r = none) → read_results fs v = PyResult.raised) := by
  refine ⟨fun f h => optionMapList_eq_some _ _ h, fun f h => optionMapList_eq_none _ _ h, ?_⟩
  intro fs v f hfs hex
  simp [read_results, hfs, optionMapList_eq_none _ _ hex]

/-- C2 (witness): the all-rows-good file parses to its records; the file
with one bad row parses to `None`; `read_results` raises on a file with
one bad row. -/
theorem perflow_parse_witness :
    parse_perflow_csv pfGoodFile = some (pfGoodFile.rows.filterMap (flowOfRow pfGoodFile.header)) ∧
    parse_perflow_csv pfBadFile = none ∧
    read_results rttBadFs "TcpFast" = PyResult.raised := by
  obtain ⟨h1, h2, h3⟩ := perflow_parse_all_or_nothing
  exact ⟨h1 pfGoodFile (by decide), h2 pfBadFile (by decide),
    h3 rttBadFs "TcpFast" rttBadFile (by decide) (by decide)⟩

/-- C2 (counterexample): on a file with one well-formed row
`(1, 2.0, 10.0)` and one malformed row, `parse_perflow_csv` does not
return the single well-formed record — it returns `None`, losing it. -/
theorem perflow_bad_row_loses_all :
    parse_perflow_csv pfBadFile = none ∧
    parse_perflow_csv pfBadFile ≠ some [⟨1, 2, 10⟩] ∧
    flowOfRow pfHeader ["1", "2.0", "10.0"] = some ⟨1, 2, 10⟩ ∧
    flowOfRow pfHeader ["oops", "3.0", "12.0"] = none := by
  refine ⟨by decide, by decide, ?_, by decide⟩
  simp +decide [flowOfRow, dictGet, List.lookup, pfHeader, pyInt, pyIntChars, pyFloat,
    pyFloatChars, pyFloatMag, splitDot, allDigits, natOfDigits, digitVal, isDigitCh]

/-- C4 (counterexample): with `TcpLinuxReno` succeeding, `TcpFast`
failing, and a usable results file for `TcpLinuxReno` on disk, the
tcp-multi-rtt driver does not proceed to parsing/analysis over the
succeeded configuration — it returns 1 right after the simulation loop. -/
theorem sim_failure_aborts_parsing :
    tcp_main fastFails renoOnlyFs = TcpPhase.earlyExit1 ∧
    isProceeded (tcp_main fastFails renoOnlyFs) = false ∧
    fastFails "TcpLinuxReno" = true ∧
    usableResults (read_results renoOnlyFs "TcpLinuxReno") = true := by
  refine ⟨by decide, by decide, by decide, by decide⟩

/-- C4 (amended): every configuration is attempted and failures only
affect the recorded success count, but the two drivers then differ:
`og-sim-2` proceeds to parsing, analysis and summary regardless of the
simulation outcomes (its collection, per-flow data and phase do not
depend on them), while `tcp-multi-rtt` returns 1 before any parsing as
soon as one configuration failed. -/
theorem orchestration_failure_handling :
    (∀ (simOk : String → Bool) (fs : CsvFs),
      tcp_variants.all simOk = false → tcp_main simOk fs = TcpPhase.earlyExit1) ∧
    (∀ (hasMpl : Bool) (simOk simOk' : String → Bool) (aggFs pfFs : CsvFs),
      (og_main hasMpl simOk aggFs pfFs).results = (og_main hasMpl simOk' aggFs pfFs).results ∧
      (og_main hasMpl simOk aggFs pfFs).perflow = (og_main hasMpl simOk' aggFs pfFs).perflow ∧
      (og_main hasMpl simOk aggFs pfFs).phase = (og_main hasMpl simOk' aggFs pfFs).phase) ∧
    (∀ (hasMpl : Bool) (simOk : String → Bool) (aggFs pfFs : CsvFs),
      (og_main hasMpl simOk aggFs pfFs).success_count =
        (TCP_VARIANTS.filter (fun v => simOk v)).length) := by
  refine ⟨fun simOk fs h => ?_, fun hasMpl simOk simOk' aggFs pfFs => ?_,
    fun hasMpl simOk aggFs pfFs => ?_⟩
  · simp [tcp_main, h]
  · by_cases h1 : (og_collect_results aggFs).isEmpty <;>
      by_cases h2 : summary_raises (og_collect_results aggFs) <;>
      by_cases h3 : hasMpl <;>
      simp [og_main, h1, h2, h3]
  · by_cases h1 : (og_collect_results aggFs).isEmpty <;>
      by_cases h2 : summary_raises (og_collect_results aggFs) <;>
      by_cases h3 : hasMpl <;>
      simp [og_main, h1, h2, h3]

/-- C4 (witness): the tcp-multi-rtt early return at the concrete failing
simulation outcome, and the og-sim-2 independence at concrete inputs. -/
theorem orchestration_failure_handling_witness :
    tcp_main fastFails noCsv = TcpPhase.earlyExit1 ∧
    (og_main false fastFails noCsv noCsv).phase = (og_main false allOk noCsv noCsv).phase := by
  obtain ⟨h1, h2, _⟩ := orchestration_failure_handling
  exact ⟨h1 fastFails noCsv (by decide), (h2 false fastFails allOk noCsv noCsv).2.2⟩

/-- C8 (counterexample): the tcp-multi-rtt driver's exit code is 1 — not
0 — in a partial-completion scenario where one simulation failed but the
other configuration produced usable aggregate data. -/
theorem partial_failure_exits_nonzero :
    tcp_main fastFails renoOnlyFs = TcpPhase.earlyExit1 ∧
    tcpExit (tcp_main fastFails renoOnlyFs) = some 1 ∧
    usableResults (read_results renoOnlyFs "TcpLinuxReno") = true := by
  refine ⟨by decide, by decide, by decide⟩

/-- C8 (amended): `tcp-multi-rtt` exits 1 both when any simulation fails
(even with usable data available) and when zero variants load after
successful simulations; `og-sim-2` exits 0 when zero configurations
yield usable aggregate data. -/
theorem exit_code_policy :
    (∀ (simOk : String → Bool) (fs : CsvFs), tcp_variants.all simOk = false →
      tcp_main simOk fs = TcpPhase.earlyExit1 ∧ tcpExit TcpPhase.earlyExit1 = some 1) ∧
    (∀ (simOk : String → Bool) (fs : CsvFs), tcp_variants.all simOk = true →
      tcp_load fs tcp_variants = PyResult.ok [] →
      tcp_main simOk fs = TcpPhase.noResultsExit1 ∧
      tcpExit TcpPhase.noResultsExit1 = some 1) ∧
    (∀ (hasMpl : Bool) (simOk : String → Bool) (aggFs pfFs : CsvFs),
      og_collect_results aggFs = [] →
      (og_main hasMpl simOk aggFs pfFs).phase = OgPhase.exit0NoResults ∧
      ogExit OgPhase.exit0NoResults = some 0) := by
  refine ⟨fun simOk fs h => ⟨?_, rfl⟩, fun simOk fs hall hload => ⟨?_, rfl⟩,
    fun hasMpl simOk aggFs pfFs h => ⟨?_, rfl⟩⟩
  · simp [tcp_main, h]
  · simp [tcp_main, hall, hload]
  · simp [og_main, h]

/-- C8 (witness): concrete instances — a failed simulation exits 1, an
all-success run with no result files exits 1, and an og-sim-2 run with
no result files ends in the exit-0 no-results phase. -/
theorem exit_code_policy_witness :
    tcp_main fastFails noCsv = TcpPhase.earlyExit1 ∧
    tcp_main allOk noCsv = TcpPhase.noResultsExit1 ∧
    (og_main true allOk noCsv noCsv).phase = OgPhase.exit0NoResults := by
  obtain ⟨h1, h2, h3⟩ := exit_code_policy
  exact ⟨(h1 fastFails noCsv (by decide)).1, (h2 allOk noCsv (by decide) (by decide)).1,
    (h3 true allOk noCsv noCsv (by decide)).1⟩

/-- C7 (counterexample): on a flow sequence whose last throughput is
`-1` (negative, not zero), the bias computation yields `+inf` instead of
the quotient `1 / (-1)` the claim prescribes, because the code's guard
is `high > 0` rather than `high != 0`. -/
theorem rtt_bias_negative_guard :
    rtt_bias negFlows = some Bias.posInf ∧
    Bias.posInf ≠ Bias.finite (1 / (-1)) ∧
    ((-1 : ℚ) ≠ 0) := by
  refine ⟨?_, by simp, by norm_num⟩
  simp [rtt_bias, negFlows]

/-- C7 (amended): on every non-empty flow sequence the bias is the first
flow's throughput divided by the last flow's throughput when the last
throughput is positive, and `+inf` when it is zero or negative. -/
theorem rtt_bias_spec (flows : List Flow2) (h : flows ≠ []) :
    ∃ lo hi, flows.head? = some lo ∧ flows.getLast? = some hi ∧
      (0 < hi.throughput →
        rtt_bias flows = some (Bias.finite (lo.throughput / hi.throughput))) ∧
      (hi.throughput ≤ 0 → rtt_bias flows = some Bias.posInf) := by
  obtain ⟨lo, hlo⟩ : ∃ lo, flows.head? = some lo := by
    cases flows with
    | nil => exact absurd rfl h
    | cons a l => exact ⟨a, rfl⟩
  obtain ⟨hi, hhi⟩ : ∃ hi, flows.getLast? = some hi :=
    Option.isSome_iff_exists.mp (List.getLast?_isSome.mpr h)
  refine ⟨lo, hi, hlo, hhi, fun hpos => ?_, fun hnonpos => ?_⟩
  · simp [rtt_bias, hlo, hhi, if_pos hpos]
  · simp [rtt_bias, hlo, hhi, if_neg (not_lt.mpr hnonpos)]

/-- C7 (witness): on the three-flow list with throughputs `1, 2, 3` the
bias is `1/3`. -/
theorem rtt_bias_spec_witness :
    rtt_bias threeFlows = some (Bias.finite (1 / 3)) := by
  obtain ⟨lo, hi, hlo, hhi, hpos, _⟩ := rtt_bias_spec threeFlows (by simp [threeFlows])
  have hlo' : threeFlows.head? = some ⟨0, 50, 1, 0, 0, 0⟩ := rfl
  have hhi' : threeFlows.getLast? = some ⟨2, 150, 3, 0, 0, 0⟩ := rfl
  rw [hlo'] at hlo
  rw [hhi'] at hhi
  obtain rfl := Option.some.inj hlo
  obtain rfl := Option.some.inj hhi
  simpa using hpos (by norm_num)

/-- C10 (code bug): on the single trace line `"1.5 abc"`, the
reno-equilibrium parser appends the timestamp before the window
conversion fails, so it returns a `times` list of length 1 and a `cwnds`
list of length 0 — the two sequences are not of equal length (the
downstream `plt.plot(times, cwnds)` requires them equal). -/
theorem cwnd_parser_unequal_lengths :
    parse_cwnd_file badCwndFs renoCwndPath = CwndOutcome.ok (renoParseLines [badCwndLine]) ∧
    (renoParseLines [badCwndLine]).1.length = 1 ∧
    (renoParseLines [badCwndLine]).2.length = 0 := by
  refine ⟨rfl, by decide, by decide⟩

/-- C1: for every non-empty flow list with positive throughputs,
`calculate_stats` returns statistics whose fairness index equals
`(Σ xᵢ)² / (n · Σ xᵢ²)` over the throughputs, lies in `(0, 1]`, and
equals exactly 1 when all throughputs are equal; on throughputs
`[1, 2, 3]` it equals `36/42`. -/
theorem fairness_index_spec :
    (∀ flows : List Flow2, flows ≠ [] → (∀ f ∈ flows, 0 < f.throughput) →
      ∃ s, calculate_stats flows = some s ∧
        s.fairness =
          ((flows.map (fun f => f.throughput)).sum * (flows.map (fun f => f.throughput)).sum) /
            ((flows.length : ℚ) * ((flows.map (fun f => f.throughput)).map (fun x => x * x)).sum) ∧
        0 < s.fairness ∧ s.fairness ≤ 1 ∧
        ((∀ f ∈ flows, ∀ g ∈ flows, f.throughput = g.throughput) → s.fairness = 1)) ∧
    (calculate_stats threeFlows).map Stats.fairness = some (36 / 42) := by
  constructor
  · intro flows hne hpos
    rcases hT : flows.map (fun f => f.throughput) with _ | ⟨t, ts⟩
    · rcases flows with _ | ⟨a, l⟩
      · exact absurd rfl hne
      · simp at hT
    · have hTpos : ∀ x ∈ t :: ts, 0 < x := by
        intro x hx
        rw [← hT] at hx
        obtain ⟨f, hf, rfl⟩ := List.mem_map.mp hx
        exact hpos f hf
      have ht : 0 < t := hTpos t (List.mem_cons_self t ts)
      have hsq : 0 < ((t :: ts).map (fun x => x * x)).sum := by
        simp only [List.map_cons, List.sum_cons]
        nlinarith [sumSq_nonneg ts, mul_pos ht ht]
      have hsum : 0 < (t :: ts).sum := List.sum_pos _ hTpos (List.cons_ne_nil t ts)
      have hlen : (0 : ℚ) < ((t :: ts).length : ℚ) := by
        exact_mod_cast Nat.succ_pos ts.length
      have hden : 0 < ((t :: ts).length : ℚ) * ((t :: ts).map (fun x => x * x)).sum :=
        mul_pos hlen hsq
      have hcalc : calculate_stats flows = some
          { total := (t :: ts).sum
            avg := (t :: ts).sum / ((t :: ts).length : ℚ)
            min := ts.foldl Min.min t
            max := ts.foldl Max.max t
            fairness := (t :: ts).sum * (t :: ts).sum /
              (((t :: ts).length : ℚ) * ((t :: ts).map (fun x => x * x)).sum)
            avg_loss := (flows.map (fun f => f.loss_rate)).sum /
              ((flows.map (fun f => f.loss_rate)).length : ℚ) } := by
        simp only [calculate_stats, hT]
        rw [if_neg hsq.ne']
      refine ⟨_, hcalc, ?_, ?_, ?_, ?_⟩
      · have hlenflows : (flows.length : ℚ) = ((t :: ts).length : ℚ) := by
          rw [← hT, List.length_map]
        rw [hT, hlenflows]
      · exact div_pos (mul_pos hsum hsum) hden
      · exact (div_le_one hden).mpr (sum_mul_self_le (t :: ts))
      · intro hall
        have htmem : t ∈ flows.map (fun f => f.throughput) := by
          rw [hT]
          exact List.mem_cons_self t ts
        obtain ⟨f0, hf0, hf0t⟩ := List.mem_map.mp htmem
        have hallT : ∀ x ∈ t :: ts, x = t := by
          intro x hx
          have hxmem : x ∈ flows.map (fun f => f.throughput) := by
            rw [hT]
            exact hx
          obtain ⟨g, hg, rfl⟩ := List.mem_map.mp hxmem
          rw [← hf0t]
          exact hall g hg f0 hf0
        have hsumeq := sum_of_all_eq (t :: ts) t hallT
        have hsqeq := sum_of_all_eq ((t :: ts).map (fun x => x * x)) (t * t) (by
          intro y hy
          obtain ⟨x, hx, rfl⟩ := List.mem_map.mp hy
          rw [hallT x hx])
        rw [List.length_map] at hsqeq
        show (t :: ts).sum * (t :: ts).sum /
            (((t :: ts).length : ℚ) * ((t :: ts).map (fun x => x * x)).sum) = 1
        rw [hsumeq, hsqeq]
        have hd : ((t :: ts).length : ℚ) * (((t :: ts).length : ℚ) * (t * t)) ≠ 0 := by
          positivity
        field_simp
        ring
  · norm_num [calculate_stats, threeFlows, Stats.fairness]

/-- C1 (witness): on the three concrete flows the statistics exist, and
the fairness index is positive and at most 1. -/
theorem fairness_index_spec_witness :
    ∃ s, calculate_stats threeFlows = some s ∧ 0 < s.fairness ∧ s.fairness ≤ 1 := by
  obtain ⟨s, h1, _, h3, h4, _⟩ := fairness_index_spec.1 threeFlows (by simp [threeFlows]) (by
    intro f hf
    simp only [threeFlows, List.mem_cons, List.not_mem_nil, or_false] at hf
    rcases hf with rfl | rfl | rfl <;> norm_num)
  exact ⟨s, h1, h3, h4⟩
